import Mathlib

/-!
Verification development for the scene-sync photo-matching application.

The repository's algorithmic core (Feature Extractor, Pair Matcher,
Confidence Classifier, Reference Reconciler, Batch Orchestrator,
Verification Engine) is specified in the project's design document; the
sources present in the repository are the browser dashboard (`app.js`,
`custom-select.js`), which consumes the core's output.  Definitions below
that embed dashboard code are translated directly from that JavaScript;
definitions for the core components are modelled from the specification,
as marked in their doc comments.

All scores are rationals (`ℚ`): the JavaScript numbers involved are
exact decimal constants and the specification's identities are exact.
-/

namespace SceneSync

/-! ### Verification Engine (spec §4.6) -/

/-- Modelled from the spec: a ground-truth pairing `{film_photo, scene_photo}`
(spec §3, "Truth Record"); the Verification Engine source (`app/core`) is not
in the repository. -/
structure TruthRecord where
  film : String
  scene : String
deriving DecidableEq, Repr

/-- Modelled from the spec: one Match Result row as consumed by the
Verification Engine and the dashboard: `{film_photo, scene_photo | absent,
confidence_score ∈ [0,1], confident_match ∈ {1,0,-1}}` (spec §3). -/
structure MatchResult where
  film_photo : String
  scene_photo : Option String
  confidence_score : ℚ
  confident_match : Int
deriving DecidableEq, Repr

/-- Modelled from the spec: the Verification Engine "builds two lookup
structures keyed by film-photo identifier"; lookup of the result record
for a film photo (first record with that identifier). -/
def findResult (results : List MatchResult) (film : String) : Option MatchResult :=
  results.find? (fun r => r.film_photo == film)

/-- Modelled from the spec: lookup of the truth record for a film photo. -/
def findTruth (truth : List TruthRecord) (film : String) : Option TruthRecord :=
  truth.find? (fun t => t.film == film)

/-- Modelled from the spec: a truth entry counts as `correct` when a result
exists for its film photo and that result's `scene_photo` equals the truth's
`scene_photo` (spec §4.6). -/
def isCorrect (results : List MatchResult) (t : TruthRecord) : Bool :=
  match findResult results t.film with
  | some r => r.scene_photo == some t.scene
  | none => false

/-- Modelled from the spec: a truth entry counts as `incorrect` when a result
exists for its film photo but the scene photo differs (spec §4.6). -/
def isIncorrect (results : List MatchResult) (t : TruthRecord) : Bool :=
  match findResult results t.film with
  | some r => r.scene_photo != some t.scene
  | none => false

/-- Modelled from the spec: a truth entry counts as `missed` when no result
exists for its film photo (spec §4.6). -/
def isMissed (results : List MatchResult) (t : TruthRecord) : Bool :=
  (findResult results t.film).isNone

/-- Modelled from the spec: a result entry counts as `extra` when it has no
corresponding truth entry at all (spec §4.6). -/
def isExtra (truth : List TruthRecord) (r : MatchResult) : Bool :=
  (findTruth truth r.film_photo).isNone

def correctCount (results : List MatchResult) (truth : List TruthRecord) : Nat :=
  truth.countP (isCorrect results)

def incorrectCount (results : List MatchResult) (truth : List TruthRecord) : Nat :=
  truth.countP (isIncorrect results)

def missedCount (results : List MatchResult) (truth : List TruthRecord) : Nat :=
  truth.countP (isMissed results)

def extraCount (results : List MatchResult) (truth : List TruthRecord) : Nat :=
  results.countP (isExtra truth)

/-- Modelled from the spec: the derived metrics record of spec §3
("Verification Metrics"). -/
structure VerificationMetrics where
  total_results : Nat
  total_truth : Nat
  correct_matches : Nat
  incorrect_matches : Nat
  missed_matches : Nat
  extra_matches : Nat
  accuracy : ℚ
  precision : ℚ
  recall' : ℚ
  f1_score : ℚ
deriving DecidableEq, Repr

/-- Modelled from the spec: `verify(results, truth)` (spec §4.6), with each
division guarded exactly as the spec prescribes: `accuracy = 0` when
`total_truth = 0`, `precision`/`recall` are `0` when their denominators are
`0`, and `f1_score = 0` when `precision` and `recall` are both `0`.  The
Verification Engine source (`app/core`) is not in the repository. -/
def verify (results : List MatchResult) (truth : List TruthRecord) : VerificationMetrics :=
  let c := correctCount results truth
  let ic := incorrectCount results truth
  let m := missedCount results truth
  let e := extraCount results truth
  let tt := truth.length
  let accuracy : ℚ := if tt = 0 then 0 else (c : ℚ) / (tt : ℚ)
  let precision : ℚ := if c + ic + e = 0 then 0 else (c : ℚ) / ((c + ic + e : Nat) : ℚ)
  let recall' : ℚ := if c + ic + m = 0 then 0 else (c : ℚ) / ((c + ic + m : Nat) : ℚ)
  let f1 : ℚ := if precision = 0 ∧ recall' = 0 then 0
    else 2 * precision * recall' / (precision + recall')
  ⟨results.length, tt, c, ic, m, e, accuracy, precision, recall', f1⟩

/-! Helper lemmas about the confusion counts. -/

lemma truthClass_exclusive (results : List MatchResult) (t : TruthRecord) :
    (if isCorrect results t then 1 else 0) + (if isIncorrect results t then 1 else 0)
      + (if isMissed results t then 1 else 0) = 1 := by
  unfold isCorrect isIncorrect isMissed
  cases h : findResult results t.film with
  | none => simp [Option.isNone]
  | some r =>
    by_cases hs : r.scene_photo = some t.scene <;> simp [hs, Option.isNone]

lemma counts_partition (results : List MatchResult) (truth : List TruthRecord) :
    correctCount results truth + incorrectCount results truth + missedCount results truth
      = truth.length := by
  unfold correctCount incorrectCount missedCount
  induction truth with
  | nil => simp
  | cons t ts ih =>
    simp only [List.countP_cons, List.length_cons]
    have h := truthClass_exclusive results t
    omega

lemma correct_le_truth (results : List MatchResult) (truth : List TruthRecord) :
    correctCount results truth ≤ truth.length :=
  List.countP_le_length _

/-! Unfolding lemmas for the fields of `verify`. -/

lemma verify_total_truth (results : List MatchResult) (truth : List TruthRecord) :
    (verify results truth).total_truth = truth.length := rfl

lemma verify_correct (results : List MatchResult) (truth : List TruthRecord) :
    (verify results truth).correct_matches = correctCount results truth := rfl

lemma verify_incorrect (results : List MatchResult) (truth : List TruthRecord) :
    (verify results truth).incorrect_matches = incorrectCount results truth := rfl

lemma verify_missed (results : List MatchResult) (truth : List TruthRecord) :
    (verify results truth).missed_matches = missedCount results truth := rfl

lemma verify_extra (results : List MatchResult) (truth : List TruthRecord) :
    (verify results truth).extra_matches = extraCount results truth := rfl

lemma verify_accuracy (results : List MatchResult) (truth : List TruthRecord) :
    (verify results truth).accuracy
      = if truth.length = 0 then 0
        else ((correctCount results truth : ℚ) / (truth.length : ℚ)) := rfl

lemma verify_precision (results : List MatchResult) (truth : List TruthRecord) :
    (verify results truth).precision
      = if correctCount results truth + incorrectCount results truth
            + extraCount results truth = 0 then 0
        else ((correctCount results truth : ℚ)
          / ((correctCount results truth + incorrectCount results truth
              + extraCount results truth : Nat) : ℚ)) := rfl

lemma verify_recall (results : List MatchResult) (truth : List TruthRecord) :
    (verify results truth).recall'
      = if correctCount results truth + incorrectCount results truth
            + missedCount results truth = 0 then 0
        else ((correctCount results truth : ℚ)
          / ((correctCount results truth + incorrectCount results truth
              + missedCount results truth : Nat) : ℚ)) := rfl

lemma verify_f1 (results : List MatchResult) (truth : List TruthRecord) :
    (verify results truth).f1_score
      = if (verify results truth).precision = 0 ∧ (verify results truth).recall' = 0 then 0
        else 2 * (verify results truth).precision * (verify results truth).recall'
          / ((verify results truth).precision + (verify results truth).recall') := rfl

/-- A guarded ratio of naturals with numerator at most the denominator lies
in `[0,1]`. -/
lemma guarded_div_bounds {a b : ℕ} (hab : a ≤ b) :
    0 ≤ (if b = 0 then (0:ℚ) else (a:ℚ) / (b:ℚ))
      ∧ (if b = 0 then (0:ℚ) else (a:ℚ) / (b:ℚ)) ≤ 1 := by
  by_cases hb : b = 0
  · simp [hb]
  · have hb' : (0:ℚ) < (b:ℚ) := by positivity
    have hab' : (a:ℚ) ≤ (b:ℚ) := by exact_mod_cast hab
    constructor
    · simp only [if_neg hb]
      positivity
    · simp only [if_neg hb]
      rw [div_le_one hb']
      exact hab'

/-- The guarded harmonic-mean combination of two numbers in `[0,1]` lies in
`[0,1]`. -/
lemma f1_combination_bounds {p r : ℚ} (hp0 : 0 ≤ p) (hp1 : p ≤ 1)
    (hr0 : 0 ≤ r) (hr1 : r ≤ 1) :
    0 ≤ (if p = 0 ∧ r = 0 then (0:ℚ) else 2 * p * r / (p + r))
      ∧ (if p = 0 ∧ r = 0 then (0:ℚ) else 2 * p * r / (p + r)) ≤ 1 := by
  by_cases h : p = 0 ∧ r = 0
  · simp [h]
  · have hpr : 0 < p + r := by
      rcases (not_and_or.mp h) with hp | hr
      · have : 0 < p := lt_of_le_of_ne hp0 (Ne.symm hp)
        linarith
      · have : 0 < r := lt_of_le_of_ne hr0 (Ne.symm hr)
        linarith
    simp only [if_neg h]
    constructor
    · positivity
    · rw [div_le_one hpr]
      nlinarith [mul_nonneg (sub_nonneg.mpr hp1) hr0, mul_nonneg (sub_nonneg.mpr hr1) hp0]

/-- C1: for every results set and truth set passed to `verify(results, truth)`,
each truth entry is counted in exactly one of `correct` (a result exists and
its `scene_photo` equals the truth's), `incorrect` (a result exists but the
scene photo differs) or `missed` (no result exists); each result whose film
photo has no truth entry is counted as `extra`, over the results and therefore
separately from `incorrect`; hence
`correct_matches + incorrect_matches + missed_matches = |truth|`. -/
theorem C1_confusion_partition (results : List MatchResult) (truth : List TruthRecord) :
    (∀ t ∈ truth,
        (isCorrect results t = true
          ↔ ∃ r, findResult results t.film = some r ∧ r.scene_photo = some t.scene)
      ∧ (isIncorrect results t = true
          ↔ ∃ r, findResult results t.film = some r ∧ r.scene_photo ≠ some t.scene)
      ∧ (isMissed results t = true ↔ findResult results t.film = none)
      ∧ (if isCorrect results t then 1 else 0) + (if isIncorrect results t then 1 else 0)
          + (if isMissed results t then 1 else 0) = 1)
    ∧ (verify results truth).extra_matches
        = results.countP (fun r => (findTruth truth r.film_photo).isNone)
    ∧ (verify results truth).correct_matches + (verify results truth).incorrect_matches
        + (verify results truth).missed_matches = (verify results truth).total_truth := by
  refine ⟨fun t _ => ?_, rfl, ?_⟩
  · refine ⟨?_, ?_, ?_, truthClass_exclusive results t⟩
    · unfold isCorrect
      cases h : findResult results t.film with
      | none => simp
      | some r => simp [h]
    · unfold isIncorrect
      cases h : findResult results t.film with
      | none => simp
      | some r => simp [h, bne_iff_ne]
    · unfold isMissed
      cases h : findResult results t.film with
      | none => simp
      | some r => simp
  · rw [verify_correct, verify_incorrect, verify_missed, verify_total_truth]
    exact counts_partition results truth

/-- Witness for C1 on the spec §8 scenario: results `[(f1,s1)]`,
truth `[(f1,s1),(f2,s2)]`. -/
theorem C1_confusion_partition_witness :
    ((isCorrect [⟨"f1", some "s1", 9/10, 1⟩] ⟨"f1", "s1"⟩ = true
        ↔ ∃ r, findResult [⟨"f1", some "s1", 9/10, 1⟩] "f1" = some r
            ∧ r.scene_photo = some "s1")
      ∧ (isIncorrect [⟨"f1", some "s1", 9/10, 1⟩] ⟨"f1", "s1"⟩ = true
          ↔ ∃ r, findResult [⟨"f1", some "s1", 9/10, 1⟩] "f1" = some r
              ∧ r.scene_photo ≠ some "s1")
      ∧ (isMissed [⟨"f1", some "s1", 9/10, 1⟩] ⟨"f1", "s1"⟩ = true
          ↔ findResult [⟨"f1", some "s1", 9/10, 1⟩] "f1" = none)
      ∧ (if isCorrect [⟨"f1", some "s1", 9/10, 1⟩] ⟨"f1", "s1"⟩ then 1 else 0)
          + (if isIncorrect [⟨"f1", some "s1", 9/10, 1⟩] ⟨"f1", "s1"⟩ then 1 else 0)
          + (if isMissed [⟨"f1", some "s1", 9/10, 1⟩] ⟨"f1", "s1"⟩ then 1 else 0) = 1) :=
  (C1_confusion_partition [⟨"f1", some "s1", 9/10, 1⟩] [⟨"f1", "s1"⟩, ⟨"f2", "s2"⟩]).1
    ⟨"f1", "s1"⟩ (by simp)

/-- C3: `verify` is total on its zero-denominator cases — `accuracy` is `0`
when `total_truth = 0`, `precision` is `0` when
`correct + incorrect + extra = 0`, `recall` is `0` when
`correct + incorrect + missed = 0`, and `f1_score` is `0` when `precision`
and `recall` are both `0` — and for every input all four metrics lie in
`[0,1]`.  Every division in the model is a total guarded operation, so no
division-by-zero fault can occur, also on empty result or truth sets. -/
theorem C3_metric_guards_and_bounds (results : List MatchResult) (truth : List TruthRecord) :
    ((verify results truth).total_truth = 0 → (verify results truth).accuracy = 0)
    ∧ ((verify results truth).correct_matches + (verify results truth).incorrect_matches
        + (verify results truth).extra_matches = 0 → (verify results truth).precision = 0)
    ∧ ((verify results truth).correct_matches + (verify results truth).incorrect_matches
        + (verify results truth).missed_matches = 0 → (verify results truth).recall' = 0)
    ∧ ((verify results truth).precision = 0 → (verify results truth).recall' = 0 →
        (verify results truth).f1_score = 0)
    ∧ (0 ≤ (verify results truth).accuracy ∧ (verify results truth).accuracy ≤ 1)
    ∧ (0 ≤ (verify results truth).precision ∧ (verify results truth).precision ≤ 1)
    ∧ (0 ≤ (verify results truth).recall' ∧ (verify results truth).recall' ≤ 1)
    ∧ (0 ≤ (verify results truth).f1_score ∧ (verify results truth).f1_score ≤ 1) := by
  have hacc := guarded_div_bounds (correct_le_truth results truth)
  have hprec := guarded_div_bounds
    (Nat.le_add_right (correctCount results truth)
      (incorrectCount results truth + extraCount results truth))
  have hrec := guarded_div_bounds
    (Nat.le_add_right (correctCount results truth)
      (incorrectCount results truth + missedCount results truth))
  rw [← Nat.add_assoc] at hprec hrec
  have haccB : 0 ≤ (verify results truth).accuracy ∧ (verify results truth).accuracy ≤ 1 := by
    rw [verify_accuracy]; exact hacc
  have hprecB : 0 ≤ (verify results truth).precision ∧ (verify results truth).precision ≤ 1 := by
    rw [verify_precision]
    exact_mod_cast hprec
  have hrecB : 0 ≤ (verify results truth).recall' ∧ (verify results truth).recall' ≤ 1 := by
    rw [verify_recall]
    exact_mod_cast hrec
  have hf1B := f1_combination_bounds hprecB.1 hprecB.2 hrecB.1 hrecB.2
  rw [← verify_f1] at hf1B
  refine ⟨?_, ?_, ?_, ?_, haccB, hprecB, hrecB, hf1B⟩
  · intro h
    rw [verify_total_truth] at h
    rw [verify_accuracy, if_pos h]
  · intro h
    rw [verify_correct, verify_incorrect, verify_extra] at h
    rw [verify_precision, if_pos h]
  · intro h
    rw [verify_correct, verify_incorrect, verify_missed] at h
    rw [verify_recall, if_pos h]
  · intro hp hr
    rw [verify_f1, if_pos ⟨hp, hr⟩]

/-- Witness for C3 at the empty verification input, where every guard fires. -/
theorem C3_metric_guards_and_bounds_witness :
    (verify [] []).accuracy = 0 ∧ (verify [] []).precision = 0
      ∧ (verify [] []).recall' = 0 ∧ (verify [] []).f1_score = 0 :=
  ⟨(C3_metric_guards_and_bounds [] []).1 rfl,
   (C3_metric_guards_and_bounds [] []).2.1 rfl,
   (C3_metric_guards_and_bounds [] []).2.2.1 rfl,
   (C3_metric_guards_and_bounds [] []).2.2.2.1
     ((C3_metric_guards_and_bounds [] []).2.1 rfl)
     ((C3_metric_guards_and_bounds [] []).2.2.1 rfl)⟩

/-- C4: for every verification input, `accuracy` equals `recall`: the two
denominators coincide because
`correct + incorrect + missed = |truth| = total_truth`, and the two
zero-denominator guards therefore fire together. -/
theorem C4_accuracy_eq_recall (results : List MatchResult) (truth : List TruthRecord) :
    (verify results truth).accuracy = (verify results truth).recall' := by
  rw [verify_accuracy, verify_recall, counts_partition results truth]
/-! ### Pair Matcher (spec §4.2)

Modelled from the spec: the Pair Matcher source (`app/core/matcher.py`) is
not in the repository.  Descriptors are fixed-length binary feature vectors
compared by Hamming distance (spec §4.2); nearest-neighbor correspondences
are mutual (cross-checked) nearest neighbors, so that each correspondence
consumes one descriptor of each set and the retained-correspondence count
can be "normalized against the smaller of the two descriptor-set sizes"
into a score in `[0,1]` as the spec prescribes; ties in distance are broken
by first-seen index (stable, deterministic). -/

/-- A binary feature vector (spec §3, "Descriptor"). -/
abbrev Descriptor := List Bool

/-- Modelled from the spec: Hamming distance between two binary descriptors
("distance metric appropriate to the feature representation — Hamming for
binary descriptors", spec §4.2). -/
def hamming (a b : Descriptor) : Nat :=
  (List.zipWith (fun x y => x != y) a b).count true

/-- One step of the nearest-neighbor scan: keep the incumbent
`(index, distance)` unless the new candidate is strictly closer, so the
first-seen minimum wins ties. -/
def nearestStep (acc : Option (Nat × Nat)) (x : Nat × Nat) : Option (Nat × Nat) :=
  match acc with
  | none => some x
  | some b => if x.2 < b.2 then some x else some b

/-- Modelled from the spec: the index (and distance) of the nearest neighbor
of descriptor `d` in the set `B`, scanning `B` in order. -/
def nearestIdx (d : Descriptor) (B : List Descriptor) : Option (Nat × Nat) :=
  ((List.range B.length).map (fun j => (j, hamming d (B.getD j [])))).foldl nearestStep none

/-- Modelled from the spec: the correspondence contributed by index `i` of
descriptor set `A`: `i` is paired with its nearest neighbor `j` in `B`
exactly when `i` is in turn the nearest neighbor of `j` back in `A`
(mutual nearest neighbors). -/
def corrAt (A B : List Descriptor) (i : Nat) : Option (Nat × Nat × Nat) :=
  match nearestIdx (A.getD i []) B with
  | none => none
  | some (j, dist) =>
    match nearestIdx (B.getD j []) A with
    | none => none
    | some (i2, _) => if i2 = i then some (i, j, dist) else none

/-- Modelled from the spec: the correspondences between descriptor sets `A`
and `B` (spec §3, "Correspondence": a pair of indices plus a distance
value). -/
def corr (A B : List Descriptor) : List (Nat × Nat × Nat) :=
  (List.range A.length).filterMap (corrAt A B)

/-- Modelled from the spec: the retained "good" correspondences — sort all
correspondences by ascending distance and keep the top
`good_match_percent` fraction (spec §4.2). -/
def goodMatches (A B : List Descriptor) (good_match_percent : ℚ) :
    List (Nat × Nat × Nat) :=
  ((corr A B).mergeSort (fun x y => decide (x.2.2 ≤ y.2.2))).take
    (⌊good_match_percent * ((corr A B).length : ℚ)⌋.toNat)

/-- Modelled from the spec: the confidence score — the retained
correspondence count normalized against the smaller of the two
descriptor-set sizes, forced to `0` when the raw correspondence count is
below the minimum-matches threshold (spec §4.2). -/
def matchScore (A B : List Descriptor) (good_match_percent : ℚ) (minMatches : Nat) : ℚ :=
  if (corr A B).length < minMatches then 0
  else if min A.length B.length = 0 then 0
  else ((goodMatches A B good_match_percent).length : ℚ)
    / (((min A.length B.length : Nat)) : ℚ)

/-- Modelled from the spec: `match(descA, descB, good_match_percent) ->
(confidence_score, correspondence_count)` (spec §4.2); the correspondence
count is reported even when the score is forced to `0`.  (Named `matchPair`
because `match` is a Lean keyword.) -/
def matchPair (A B : List Descriptor) (good_match_percent : ℚ) (minMatches : Nat) :
    ℚ × Nat :=
  (matchScore A B good_match_percent minMatches, (corr A B).length)

/-! Helper lemmas for the correspondence count. -/

lemma nearestFold_mem {l : List (Nat × Nat)} {acc : Option (Nat × Nat)} {x : Nat × Nat}
    (h : l.foldl nearestStep acc = some x) : acc = some x ∨ x ∈ l := by
  induction l generalizing acc with
  | nil => exact Or.inl h
  | cons y ys ih =>
    rcases ih h with h' | h'
    · cases acc with
      | none =>
        simp only [nearestStep, Option.some.injEq] at h'
        exact Or.inr (h' ▸ List.mem_cons_self y ys)
      | some b =>
        simp only [nearestStep] at h'
        split at h'
        · simp only [Option.some.injEq] at h'
          exact Or.inr (h' ▸ List.mem_cons_self y ys)
        · exact Or.inl h'
    · exact Or.inr (List.mem_cons_of_mem y h')

lemma nearestIdx_lt {d : Descriptor} {B : List Descriptor} {jd : Nat × Nat}
    (h : nearestIdx d B = some jd) : jd.1 < B.length := by
  unfold nearestIdx at h
  rcases nearestFold_mem h with h' | h'
  · exact absurd h' (by simp)
  · rcases List.mem_map.mp h' with ⟨j', hj', heq⟩
    have : j' = jd.1 := congrArg Prod.fst heq
    exact this ▸ List.mem_range.mp hj'

lemma corrAt_fst {A B : List Descriptor} {i : Nat} {x : Nat × Nat × Nat}
    (h : corrAt A B i = some x) : x.1 = i := by
  unfold corrAt at h
  split at h
  · exact absurd h (by simp)
  · split at h
    · exact absurd h (by simp)
    · split at h
      · simp only [Option.some.injEq] at h
        rw [← h]
      · exact absurd h (by simp)

lemma corrAt_spec {A B : List Descriptor} {i : Nat} {x : Nat × Nat × Nat}
    (h : corrAt A B i = some x) :
    nearestIdx (A.getD x.1 []) B = some (x.2.1, x.2.2)
      ∧ ∃ d2, nearestIdx (B.getD x.2.1 []) A = some (x.1, d2) := by
  unfold corrAt at h
  split at h
  · exact absurd h (by simp)
  · rename_i j dist hnb
    split at h
    · exact absurd h (by simp)
    · rename_i i2 d2 hna
      split at h
      · rename_i hi2
        simp only [Option.some.injEq] at h
        subst h
        subst hi2
        exact ⟨hnb, d2, hna⟩
      · exact absurd h (by simp)

lemma mem_corr {A B : List Descriptor} {x : Nat × Nat × Nat} (hx : x ∈ corr A B) :
    x.1 < A.length
      ∧ nearestIdx (A.getD x.1 []) B = some (x.2.1, x.2.2)
      ∧ ∃ d2, nearestIdx (B.getD x.2.1 []) A = some (x.1, d2) := by
  rcases List.mem_filterMap.mp hx with ⟨i, hi, hf⟩
  have hfst := corrAt_fst hf
  exact ⟨hfst ▸ List.mem_range.mp hi, corrAt_spec hf⟩

lemma corr_nodup (A B : List Descriptor) : (corr A B).Nodup := by
  apply List.Nodup.filterMap _ (List.nodup_range _)
  intro a a' b hb hb'
  rw [Option.mem_def] at hb hb'
  rw [← corrAt_fst hb, ← corrAt_fst hb']

lemma corr_length_le_left (A B : List Descriptor) : (corr A B).length ≤ A.length := by
  calc (corr A B).length ≤ (List.range A.length).length := List.length_filterMap_le _ _
    _ = A.length := List.length_range _

lemma corr_length_le_right (A B : List Descriptor) : (corr A B).length ≤ B.length := by
  have hinj : ∀ x ∈ corr A B, ∀ y ∈ corr A B, x.2.1 = y.2.1 → x = y := by
    intro x hx y hy hxy
    obtain ⟨_, hx2, dx, hx3⟩ := mem_corr hx
    obtain ⟨_, hy2, dy, hy3⟩ := mem_corr hy
    rw [hxy] at hx3
    rw [hx3] at hy3
    simp only [Option.some.injEq, Prod.mk.injEq] at hy3
    obtain ⟨hfst, -⟩ := hy3
    rw [← hfst] at hy2
    rw [hx2] at hy2
    simp only [Option.some.injEq, Prod.mk.injEq] at hy2
    obtain ⟨h21, h22⟩ := hy2
    exact Prod.ext_iff.mpr ⟨hfst, Prod.ext_iff.mpr ⟨h21, h22⟩⟩
  have hnodup : ((corr A B).map (fun x => x.2.1)).Nodup :=
    (corr_nodup A B).map_on (fun x hx y hy h => hinj x hx y hy h)
  have hsub : ((corr A B).map (fun x => x.2.1)) ⊆ List.range B.length := by
    intro j hj
    rcases List.mem_map.mp hj with ⟨x, hx, hxj⟩
    obtain ⟨-, hx2, -⟩ := mem_corr hx
    exact List.mem_range.mpr (hxj ▸ nearestIdx_lt hx2)
  calc (corr A B).length = ((corr A B).map (fun x => x.2.1)).length :=
        (List.length_map _ _).symm
    _ ≤ (List.range B.length).length := (hnodup.subperm hsub).length_le
    _ = B.length := List.length_range _

lemma corr_length_le_min (A B : List Descriptor) :
    (corr A B).length ≤ min A.length B.length :=
  le_min (corr_length_le_left A B) (corr_length_le_right A B)

lemma goodMatches_length_le (A B : List Descriptor) (p : ℚ) :
    (goodMatches A B p).length ≤ (corr A B).length := by
  unfold goodMatches
  rw [List.length_take]
  calc min _ _ ≤ ((corr A B).mergeSort (fun x y => decide (x.2.2 ≤ y.2.2))).length :=
        min_le_right _ _
    _ = (corr A B).length := (List.mergeSort_perm (corr A B) _).length_eq

/-- C5: for all descriptor sets `A` and `B`, every `good_match_percent` and
every minimum-matches threshold, the confidence score returned by
`match(A, B, p)` lies in the closed interval `[0,1]`; the score is the
retained-correspondence count normalized against the smaller of the two
descriptor-set sizes, which is sound because the mutual-nearest-neighbor
correspondence count never exceeds that smaller size. -/
theorem C5_confidence_in_unit_interval (A B : List Descriptor)
    (good_match_percent : ℚ) (minMatches : Nat) :
    0 ≤ (matchPair A B good_match_percent minMatches).1
      ∧ (matchPair A B good_match_percent minMatches).1 ≤ 1 := by
  have hfst : (matchPair A B good_match_percent minMatches).1
      = matchScore A B good_match_percent minMatches := rfl
  rw [hfst]
  unfold matchScore
  by_cases h1 : (corr A B).length < minMatches
  · simp [h1]
  · rw [if_neg h1]
    by_cases h2 : min A.length B.length = 0
    · simp [h2]
    · rw [if_neg h2]
      have hpos : 0 < min A.length B.length := Nat.pos_of_ne_zero h2
      have hd : (0:ℚ) < (((min A.length B.length : Nat)) : ℚ) := by exact_mod_cast hpos
      have htake : (goodMatches A B good_match_percent).length
          ≤ min A.length B.length :=
        le_trans (goodMatches_length_le A B good_match_percent) (corr_length_le_min A B)
      constructor
      · positivity
      · rw [div_le_one hd]
        exact_mod_cast htake

/-! ### Confidence Classifier (spec §4.3) -/

/-- Modelled from the spec: the classifier's three-way outcome for a freshly
computed score — `confident`, `maybe`, or the deferred-eligible `uncertain`
candidate ("still recorded, but not auto-accepted", spec §4.3). -/
inductive ClassLabel where
  | confident
  | maybe
  | uncertain
deriving DecidableEq, Repr

/-- Modelled from the spec: `classify(confidence_score)` with its two fixed
cut points (spec §4.3): scores `≥ high_threshold` are `confident`, scores
`< low_threshold` are deferred-eligible (`uncertain`), everything between is
`maybe`.  The Confidence Classifier source (`app/core`) is not in the
repository. -/
def classify (low_threshold high_threshold score : ℚ) : ClassLabel :=
  if high_threshold ≤ score then ClassLabel.confident
  else if score < low_threshold then ClassLabel.uncertain
  else ClassLabel.maybe

/-- Modelled from the spec: projection of a fresh classifier label to the
legacy `confident_match` integer code (spec §9): `confident ↦ 1`, `maybe`
and `uncertain` ↦ `0`.  The code `-1` stands for Reference-Table reuse and
is assigned only by the Reconciler, never by the classifier. -/
def ClassLabel.toCode : ClassLabel → Int
  | ClassLabel.confident => 1
  | _ => 0

/-- From the dashboard source (`app.js`, `getConfidenceClass`): the CSS class
for a confidence score, with display tiers at `0.7` and `0.5`. -/
def getConfidenceClass (score : ℚ) : String :=
  if 7/10 ≤ score then "confidence-high"
  else if 1/2 ≤ score then "confidence-medium"
  else "confidence-low"

/-- From the dashboard source (`app.js`, `displayResults`): the status badge
shown for a result's `confident_match` code (`1` Confident, `-1` Deferred,
anything else Maybe). -/
def statusBadge (confident_match : Int) : String :=
  if confident_match = 1 then "Confident"
  else if confident_match = -1 then "Deferred"
  else "Maybe"

/-- The dashboard's display tiers agree with the modelled classifier at the
UI cut points `0.5`/`0.7`. -/
lemma getConfidenceClass_eq_classify (s : ℚ) :
    getConfidenceClass s = (match classify (1/2) (7/10) s with
      | ClassLabel.confident => "confidence-high"
      | ClassLabel.maybe => "confidence-medium"
      | ClassLabel.uncertain => "confidence-low") := by
  unfold getConfidenceClass classify
  by_cases h1 : (7:ℚ)/10 ≤ s
  · rw [if_pos h1, if_pos h1]
  · rw [if_neg h1, if_neg h1]
    by_cases h2 : (1:ℚ)/2 ≤ s
    · rw [if_pos h2, if_neg (not_lt.mpr h2)]
    · rw [if_neg h2, if_pos (not_le.mp h2)]

/-- C6: `classify(confidence_score)` is a total stateless function with
exactly two cut points — every score `≥ high_threshold` is `confident`,
every score `< low_threshold` is the deferred-eligible (`uncertain`) label,
and every score in between is `maybe` — and on a freshly computed score its
integer code is `1` or `0`, never the deferred `-1`, which only the
Reference Reconciler assigns. -/
theorem C6_classifier_cut_points (lo hi s : ℚ) (h : lo ≤ hi) :
    (classify lo hi s = ClassLabel.confident ↔ hi ≤ s)
    ∧ (classify lo hi s = ClassLabel.uncertain ↔ s < lo)
    ∧ (classify lo hi s = ClassLabel.maybe ↔ lo ≤ s ∧ s < hi)
    ∧ (classify lo hi s).toCode ≠ -1
    ∧ ((classify lo hi s).toCode = 1 ∨ (classify lo hi s).toCode = 0) := by
  unfold classify
  by_cases h1 : hi ≤ s
  · rw [if_pos h1]
    exact ⟨⟨fun _ => h1, fun _ => rfl⟩,
           ⟨fun hc => absurd hc (by simp), fun hs => absurd h1 (not_le.mpr (lt_of_lt_of_le hs h))⟩,
           ⟨fun hc => absurd hc (by simp), fun hs => absurd h1 (not_le.mpr hs.2)⟩,
           by decide, Or.inl rfl⟩
  · rw [if_neg h1]
    by_cases h2 : s < lo
    · rw [if_pos h2]
      exact ⟨⟨fun hc => absurd hc (by simp), fun hs => absurd hs h1⟩,
             ⟨fun _ => h2, fun _ => rfl⟩,
             ⟨fun hc => absurd hc (by simp), fun hs => absurd h2 (not_lt.mpr hs.1)⟩,
             by decide, Or.inr rfl⟩
    · rw [if_neg h2]
      exact ⟨⟨fun hc => absurd hc (by simp), fun hs => absurd hs h1⟩,
             ⟨fun hc => absurd hc (by simp), fun hs => absurd hs h2⟩,
             ⟨fun _ => ⟨not_lt.mp h2, not_le.mp h1⟩, fun _ => rfl⟩,
             by decide, Or.inr rfl⟩

/-- Witness for C6 at the UI thresholds `0.5`/`0.7` and score `0.6`. -/
theorem C6_classifier_cut_points_witness :
    classify (1/2) (7/10) (6/10) = ClassLabel.maybe
      ∧ (classify (1/2) (7/10) (6/10)).toCode ≠ -1 :=
  ⟨((C6_classifier_cut_points (1/2) (7/10) (6/10) (by norm_num)).2.2.1).mpr
      ⟨by norm_num, by norm_num⟩,
   (C6_classifier_cut_points (1/2) (7/10) (6/10) (by norm_num)).2.2.2.1⟩

/-! ### Reference Reconciler (spec §4.4) and Batch Orchestrator (spec §4.5) -/

/-- Modelled from the spec: one Reference Table entry — a previously
confirmed film→scene mapping with its score (spec §3, "Reference Table");
externally supplied and read-only during a run. -/
structure RefEntry where
  film : String
  scene : String
  score : ℚ
deriving DecidableEq, Repr

/-- Modelled from the spec: lookup of the confirmed Reference Table entry
for a film photo. -/
def refLookup (table : List RefEntry) (film : String) : Option RefEntry :=
  table.find? (fun e => e.film == film)

/-- Modelled from the spec: evaluation of one candidate scene photo against
the film photo's descriptor set, yielding `(name, confidence_score,
correspondence_count)`.  An unreadable scene photo (no descriptor set)
degrades to a zero score with zero correspondences instead of failing
(spec §4.5 failure policy). -/
def evalCandidate (filmDesc : List Descriptor) (p : ℚ) (minMatches : Nat)
    (c : String × Option (List Descriptor)) : String × ℚ × Nat :=
  match c.2 with
  | none => (c.1, 0, 0)
  | some d => (c.1, matchPair filmDesc d p minMatches)

/-- Modelled from the spec: first-seen maximum by confidence score — a later
candidate replaces the incumbent only when strictly better, so ties are
broken by first-seen candidate order (spec §4.4). -/
def firstMax : List (String × ℚ × Nat) → Option (String × ℚ × Nat)
  | [] => none
  | c :: cs =>
    match firstMax cs with
    | none => some c
    | some b => if c.2.1 < b.2.1 then some b else some c

/-- Modelled from the spec: `resolve(film_photo, candidate_scene_photos,
reference_table) -> MatchResult` (spec §4.4), instrumented with the number
of Pair Matcher invocations performed (second component) so the
short-circuit on a confirmed Reference Table entry is observable.  A
confirmed entry is returned verbatim with `confident_match = -1` and zero
Pair Matcher calls; an unreadable film photo degrades to a no-match result;
otherwise every candidate is evaluated, candidates whose correspondence
count clears the minimum-matches threshold compete, the first-seen best is
selected and classified (`confident_match ∈ {1, 0}`), and when no candidate
clears the threshold the scene photo is absent with score `0`.  The
Reconciler source (`app/core`) is not in the repository. -/
def resolve (film : String) (filmDesc : Option (List Descriptor))
    (candidates : List (String × Option (List Descriptor)))
    (table : List RefEntry) (p : ℚ) (minMatches : Nat) (lo hi : ℚ) :
    MatchResult × Nat :=
  match refLookup table film with
  | some e => (⟨film, some e.scene, e.score, -1⟩, 0)
  | none =>
    match filmDesc with
    | none => (⟨film, none, 0, 0⟩, 0)
    | some fd =>
      match firstMax ((candidates.map (evalCandidate fd p minMatches)).filter
          (fun c => decide (minMatches ≤ c.2.2))) with
      | none => (⟨film, none, 0, 0⟩, candidates.length)
      | some b => (⟨film, some b.1, b.2.1, (classify lo hi b.2.1).toCode⟩, candidates.length)

/-- Modelled from the spec: the Batch Orchestrator's per-folder run
(spec §4.5) — one Match Result per film photo, in folder-listing order,
each produced by the Reconciler against the full scene-photo candidate
set. -/
def runBatch (films : List (String × Option (List Descriptor)))
    (scenes : List (String × Option (List Descriptor)))
    (table : List RefEntry) (p : ℚ) (minMatches : Nat) (lo hi : ℚ) : List MatchResult :=
  films.map (fun f => (resolve f.1 f.2 scenes table p minMatches lo hi).1)

/-- Modelled from the spec: the run as a whole, with folder enumeration as a
fallible collaborator call (spec §6, "Folder Lister"): an enumeration
failure of either folder propagates as the run's outcome, while per-photo
failures are absorbed by `resolve` (spec §4.5, §7). -/
def runFolders (filmFolder sceneFolder : Except String (List (String × Option (List Descriptor))))
    (table : List RefEntry) (p : ℚ) (minMatches : Nat) (lo hi : ℚ) :
    Except String (List MatchResult) :=
  match filmFolder with
  | Except.error e => Except.error e
  | Except.ok films =>
    match sceneFolder with
    | Except.error e => Except.error e
    | Except.ok scenes => Except.ok (runBatch films scenes table p minMatches lo hi)

/-! Helper lemmas about `firstMax` and `resolve`. -/

lemma firstMax_eq_none {l : List (String × ℚ × Nat)} : firstMax l = none ↔ l = [] := by
  cases l with
  | nil => simp [firstMax]
  | cons c cs =>
    simp only [firstMax]
    constructor
    · intro h
      split at h
      · exact absurd h (by simp)
      · split at h <;> exact absurd h (by simp)
    · intro h
      exact absurd h (by simp)

lemma firstMax_spec (l : List (String × ℚ × Nat)) (b : String × ℚ × Nat)
    (hb : firstMax l = some b) :
    ∃ i, ∃ h : i < l.length, l.get ⟨i, h⟩ = b
      ∧ (∀ x ∈ l, x.2.1 ≤ b.2.1)
      ∧ ∀ j, ∀ hj : j < i, (l.get ⟨j, lt_trans hj h⟩).2.1 < b.2.1 := by
  induction l generalizing b with
  | nil => exact absurd hb (by simp [firstMax])
  | cons c cs ih =>
    simp only [firstMax] at hb
    split at hb
    · rename_i hcs
      simp only [Option.some.injEq] at hb
      subst hb
      have hnil : cs = [] := firstMax_eq_none.mp hcs
      subst hnil
      refine ⟨0, by simp, rfl, ?_, fun j hj => absurd hj (Nat.not_lt_zero j)⟩
      intro x hx
      rw [List.mem_singleton.mp hx]
    · rename_i bb hcs
      split at hb
      · rename_i hlt
        simp only [Option.some.injEq] at hb
        subst hb
        obtain ⟨i, hi, hget, hmax, hfirst⟩ := ih bb hcs
        refine ⟨i + 1, Nat.succ_lt_succ hi, by simpa using hget, ?_, ?_⟩
        · intro x hx
          rcases List.mem_cons.mp hx with hx' | hx'
          · rw [hx']; exact le_of_lt hlt
          · exact hmax x hx'
        · intro j hj
          cases j with
          | zero => simpa using hlt
          | succ j' =>
            have hj' : j' < i := Nat.lt_of_succ_lt_succ hj
            simpa using hfirst j' hj'
      · rename_i hlt
        simp only [Option.some.injEq] at hb
        subst hb
        obtain ⟨i, hi, hget, hmax, hfirst⟩ := ih bb hcs
        refine ⟨0, Nat.succ_pos _, rfl, ?_, fun j hj => absurd hj (Nat.not_lt_zero j)⟩
        intro x hx
        rcases List.mem_cons.mp hx with hx' | hx'
        · rw [hx']
        · exact le_trans (hmax x hx') (not_lt.mp hlt)

lemma resolve_absent (film : String) (filmDesc : Option (List Descriptor))
    (candidates : List (String × Option (List Descriptor)))
    (table : List RefEntry) (p : ℚ) (minMatches : Nat) (lo hi : ℚ) :
    (resolve film filmDesc candidates table p minMatches lo hi).1.scene_photo = none →
    (resolve film filmDesc candidates table p minMatches lo hi).1
      = ⟨film, none, 0, 0⟩ := by
  unfold resolve
  split
  · intro h
    exact absurd h (by simp)
  · split
    · intro _
      rfl
    · split
      · intro _
        rfl
      · intro h
        exact absurd h (by simp)

/-- C2: for every film photo with a confirmed entry in the reference table,
`resolve(film_photo, candidate_scene_photos, reference_table)` returns that
entry's scene photo and score verbatim with `confident_match = -1` and
performs zero Pair Matcher invocations, so the entry is not recomputed in
the same run. -/
theorem C2_reference_shortcircuit (film : String) (filmDesc : Option (List Descriptor))
    (candidates : List (String × Option (List Descriptor)))
    (table : List RefEntry) (p : ℚ) (minMatches : Nat) (lo hi : ℚ) (e : RefEntry)
    (h : refLookup table film = some e) :
    resolve film filmDesc candidates table p minMatches lo hi
      = (⟨film, some e.scene, e.score, -1⟩, 0) := by
  unfold resolve
  rw [h]

/-- Witness for C2 on the spec §8 scenario: a reference table containing
`f1 → s1` with prior score `0.9` short-circuits with zero matcher calls. -/
theorem C2_reference_shortcircuit_witness :
    refLookup [⟨"f1", "s1", 9/10⟩] "f1" = some ⟨"f1", "s1", 9/10⟩
      ∧ resolve "f1" none [] [⟨"f1", "s1", 9/10⟩] (15/100) 10 (1/2) (7/10)
          = (⟨"f1", some "s1", 9/10, -1⟩, 0) :=
  ⟨rfl, C2_reference_shortcircuit "f1" none [] [⟨"f1", "s1", 9/10⟩] (15/100) 10 (1/2)
    (7/10) ⟨"f1", "s1", 9/10⟩ rfl⟩

/-- C7: for every Match Result produced in a run, if `scene_photo` is absent
then `confident_match` is `0` or `-1` and never `1`, and the
`confidence_score` is `0` (the "or is 0" arm of the invariant: in the model
every candidate that fails the minimum-correspondence threshold scores `0`,
so the best failing candidate's surfaced score is `0`). -/
theorem C7_absent_scene_invariant (films scenes : List (String × Option (List Descriptor)))
    (table : List RefEntry) (p : ℚ) (minMatches : Nat) (lo hi : ℚ) (r : MatchResult)
    (hr : r ∈ runBatch films scenes table p minMatches lo hi)
    (habs : r.scene_photo = none) :
    (r.confident_match = 0 ∨ r.confident_match = -1)
      ∧ r.confident_match ≠ 1
      ∧ r.confidence_score = 0 := by
  rcases List.mem_map.mp hr with ⟨f, hf, hfr⟩
  have habs' : (resolve f.1 f.2 scenes table p minMatches lo hi).1.scene_photo = none := by
    rw [hfr]
    exact habs
  have hres : r = ⟨f.1, none, 0, 0⟩ := by
    rw [← hfr]
    exact resolve_absent f.1 f.2 scenes table p minMatches lo hi habs'
  rw [hres]
  exact ⟨Or.inl rfl, by simp, rfl⟩

/-- Witness for C7: a run whose only film photo finds no clearing candidate
produces an absent scene with code `0` and score `0`. -/
theorem C7_absent_scene_invariant_witness :
    ((⟨"f2", none, 0, 0⟩ : MatchResult).confident_match = 0
        ∨ (⟨"f2", none, 0, 0⟩ : MatchResult).confident_match = -1)
      ∧ (⟨"f2", none, 0, 0⟩ : MatchResult).confident_match ≠ 1
      ∧ (⟨"f2", none, 0, 0⟩ : MatchResult).confidence_score = 0 :=
  C7_absent_scene_invariant [("f2", some [[true]])] [] [] (15/100) 1 (1/2) (7/10)
    ⟨"f2", none, 0, 0⟩ (by decide) rfl

/-- C8: running the Batch Orchestrator twice with identical folders,
parameters and Reference Table yields identical ordered Match Result
sequences (the model is a pure function of its inputs, so the two runs are
definitionally equal), and ties in confidence score within a single resolve
call are broken by first-seen candidate order: the selected candidate is at
a position holding the maximum score such that every strictly earlier
position scores strictly less. -/
theorem C8_idempotent_and_stable (films scenes : List (String × Option (List Descriptor)))
    (table : List RefEntry) (p : ℚ) (minMatches : Nat) (lo hi : ℚ) :
    runBatch films scenes table p minMatches lo hi
        = runBatch films scenes table p minMatches lo hi
    ∧ ∀ (l : List (String × ℚ × Nat)) (b : String × ℚ × Nat),
        firstMax l = some b →
          ∃ i, ∃ h : i < l.length, l.get ⟨i, h⟩ = b
            ∧ (∀ x ∈ l, x.2.1 ≤ b.2.1)
            ∧ ∀ j, ∀ hj : j < i, (l.get ⟨j, lt_trans hj h⟩).2.1 < b.2.1 :=
  ⟨rfl, firstMax_spec⟩

/-- Witness for C8 on a two-way tie: with candidates `s1` and `s2` both at
score `1/2`, the first-seen candidate `s1` is selected. -/
theorem C8_idempotent_and_stable_witness :
    ∃ i, ∃ h : i < ([("s1", (1:ℚ), 3), ("s2", (1:ℚ), 3)]
        : List (String × ℚ × Nat)).length,
      ([("s1", (1:ℚ), 3), ("s2", (1:ℚ), 3)] : List (String × ℚ × Nat)).get ⟨i, h⟩
          = ("s1", (1:ℚ), 3)
        ∧ (∀ x ∈ ([("s1", (1:ℚ), 3), ("s2", (1:ℚ), 3)] : List (String × ℚ × Nat)),
            x.2.1 ≤ ("s1", (1:ℚ), 3).2.1)
        ∧ ∀ j, ∀ hj : j < i,
            (([("s1", (1:ℚ), 3), ("s2", (1:ℚ), 3)]
              : List (String × ℚ × Nat)).get ⟨j, lt_trans hj h⟩).2.1
              < ("s1", (1:ℚ), 3).2.1 :=
  (C8_idempotent_and_stable [] [] [] 0 0 0 0).2
    [("s1", (1:ℚ), 3), ("s2", (1:ℚ), 3)] ("s1", (1:ℚ), 3) (by rfl)

/-- C9: a single unreadable film photo never aborts a run — with no
reference entry it yields a Match Result with absent `scene_photo` and
score `0`; the result at every other position is the `resolve` of that
film photo alone, unaffected (the run decomposes per-photo); the run is
total with exactly one result per film photo; and the run as a whole fails
exactly when a folder enumeration fails, in which case that failure
propagates to the caller. -/
theorem C9_failure_isolation (name : String) (d : Option (List Descriptor))
    (films films₁ films₂ scenes : List (String × Option (List Descriptor)))
    (sceneFolder : Except String (List (String × Option (List Descriptor))))
    (table : List RefEntry) (p : ℚ) (minMatches : Nat) (lo hi : ℚ) (err : String) :
    (refLookup table name = none →
      (resolve name none scenes table p minMatches lo hi).1 = ⟨name, none, 0, 0⟩)
    ∧ runBatch (films₁ ++ (name, d) :: films₂) scenes table p minMatches lo hi
        = runBatch films₁ scenes table p minMatches lo hi
          ++ (resolve name d scenes table p minMatches lo hi).1
            :: runBatch films₂ scenes table p minMatches lo hi
    ∧ (runBatch films scenes table p minMatches lo hi).length = films.length
    ∧ runFolders (Except.error err) sceneFolder table p minMatches lo hi
        = Except.error err
    ∧ runFolders (Except.ok films) (Except.error err) table p minMatches lo hi
        = Except.error err
    ∧ runFolders (Except.ok films) (Except.ok scenes) table p minMatches lo hi
        = Except.ok (runBatch films scenes table p minMatches lo hi) := by
  refine ⟨?_, ?_, ?_, rfl, rfl, rfl⟩
  · intro h
    unfold resolve
    rw [h]
  · unfold runBatch
    rw [List.map_append, List.map_cons]
  · exact List.length_map _ _

/-- Witness for C9: an unreadable film photo `f9` (no descriptors) with an
empty reference table degrades to a no-match result. -/
theorem C9_failure_isolation_witness :
    (resolve "f9" none [("s1", some [[true]])] [] (15/100) 1 (1/2) (7/10)).1
      = ⟨"f9", none, 0, 0⟩ :=
  (C9_failure_isolation "f9" none [] [] [] [("s1", some [[true]])]
    (Except.ok []) [] (15/100) 1 (1/2) (7/10) "e").1 rfl

/-! ### Confidence histogram (dashboard `createConfidenceChart`) -/

/-- From the dashboard source (`app.js`, `createConfidenceChart`): the bin
edges `bins = [0, 0.2, 0.4, 0.6, 0.7, 0.8, 0.9, 1.0]` of the confidence
histogram. -/
def confidenceBins : List ℚ := [0, 2/10, 4/10, 6/10, 7/10, 8/10, 9/10, 1]

/-- From the dashboard source (`app.js`, `createConfidenceChart`): the bin a
confidence score falls into.  The JavaScript scans `i = 0 .. bins.length-2`
and counts the result in the first bin with
`confidence >= bins[i] && confidence < bins[i+1]`, then breaks out of the
loop; this is that loop unrolled.  `binCounts` has 8 entries in the source
but the loop never touches index 7. -/
def binIndexOf (c : ℚ) : Option Nat :=
  if 0 ≤ c ∧ c < 2/10 then some 0
  else if 2/10 ≤ c ∧ c < 4/10 then some 1
  else if 4/10 ≤ c ∧ c < 6/10 then some 2
  else if 6/10 ≤ c ∧ c < 7/10 then some 3
  else if 7/10 ≤ c ∧ c < 8/10 then some 4
  else if 8/10 ≤ c ∧ c < 9/10 then some 5
  else if 9/10 ≤ c ∧ c < 1 then some 6
  else none

/-- From the dashboard source: `binCounts[i]`, the number of results whose
confidence score lands in histogram bin `i`. -/
def binCount (scores : List ℚ) (i : Nat) : Nat :=
  scores.countP (fun c => binIndexOf c == some i)

/-- The total over all eight `binCounts` entries of the source. -/
def binCountsTotal (scores : List ℚ) : Nat :=
  ((List.range 8).map (binCount scores)).sum

/-! Helper lemmas for the histogram. -/

lemma binIndexOf_eq_some {c : ℚ} {i : Nat} :
    binIndexOf c = some i
      ↔ i < 7 ∧ confidenceBins.getD i 0 ≤ c ∧ c < confidenceBins.getD (i + 1) 0 := by
  constructor
  · intro h
    unfold binIndexOf at h
    split_ifs at h with h0 h1 h2 h3 h4 h5 h6
    · injection h with h'
      subst h'
      exact ⟨by norm_num, h0.1, h0.2⟩
    · injection h with h'
      subst h'
      exact ⟨by norm_num, h1.1, h1.2⟩
    · injection h with h'
      subst h'
      exact ⟨by norm_num, h2.1, h2.2⟩
    · injection h with h'
      subst h'
      exact ⟨by norm_num, h3.1, h3.2⟩
    · injection h with h'
      subst h'
      exact ⟨by norm_num, h4.1, h4.2⟩
    · injection h with h'
      subst h'
      exact ⟨by norm_num, h5.1, h5.2⟩
    · injection h with h'
      subst h'
      exact ⟨by norm_num, h6.1, h6.2⟩
  · rintro ⟨h7, hlo, hhi⟩
    interval_cases i <;>
      simp only [confidenceBins, List.getD_cons_zero, List.getD_cons_succ] at hlo hhi <;>
      unfold binIndexOf
    · rw [if_pos ⟨hlo, hhi⟩]
    · rw [if_neg (by intro h'; linarith [h'.2]), if_pos ⟨hlo, hhi⟩]
    · rw [if_neg (by intro h'; linarith [h'.2]), if_neg (by intro h'; linarith [h'.2]),
        if_pos ⟨hlo, hhi⟩]
    · rw [if_neg (by intro h'; linarith [h'.2]), if_neg (by intro h'; linarith [h'.2]),
        if_neg (by intro h'; linarith [h'.2]), if_pos ⟨hlo, hhi⟩]
    · rw [if_neg (by intro h'; linarith [h'.2]), if_neg (by intro h'; linarith [h'.2]),
        if_neg (by intro h'; linarith [h'.2]), if_neg (by intro h'; linarith [h'.2]),
        if_pos ⟨hlo, hhi⟩]
    · rw [if_neg (by intro h'; linarith [h'.2]), if_neg (by intro h'; linarith [h'.2]),
        if_neg (by intro h'; linarith [h'.2]), if_neg (by intro h'; linarith [h'.2]),
        if_neg (by intro h'; linarith [h'.2]), if_pos ⟨hlo, hhi⟩]
    · rw [if_neg (by intro h'; linarith [h'.2]), if_neg (by intro h'; linarith [h'.2]),
        if_neg (by intro h'; linarith [h'.2]), if_neg (by intro h'; linarith [h'.2]),
        if_neg (by intro h'; linarith [h'.2]), if_neg (by intro h'; linarith [h'.2]),
        if_pos ⟨hlo, hhi⟩]

lemma binIndexOf_isSome {c : ℚ} : (binIndexOf c).isSome ↔ 0 ≤ c ∧ c < 1 := by
  unfold binIndexOf
  split_ifs with h0 h1 h2 h3 h4 h5 h6
  · simp only [Option.isSome_some, true_iff]
    exact ⟨h0.1, by linarith [h0.2]⟩
  · simp only [Option.isSome_some, true_iff]
    exact ⟨by linarith [h1.1], by linarith [h1.2]⟩
  · simp only [Option.isSome_some, true_iff]
    exact ⟨by linarith [h2.1], by linarith [h2.2]⟩
  · simp only [Option.isSome_some, true_iff]
    exact ⟨by linarith [h3.1], by linarith [h3.2]⟩
  · simp only [Option.isSome_some, true_iff]
    exact ⟨by linarith [h4.1], by linarith [h4.2]⟩
  · simp only [Option.isSome_some, true_iff]
    exact ⟨by linarith [h5.1], by linarith [h5.2]⟩
  · simp only [Option.isSome_some, true_iff]
    exact ⟨by linarith [h6.1], h6.2⟩
  · simp only [Option.isSome_none, Bool.false_eq_true, false_iff, not_and, not_lt]
    intro hc0
    push_neg at h0 h1 h2 h3 h4 h5 h6
    exact h6 (h5 (h4 (h3 (h2 (h1 (h0 hc0))))))

lemma binIndexOf_lt_eight {c : ℚ} {i : Nat} (h : binIndexOf c = some i) : i < 8 := by
  unfold binIndexOf at h
  split_ifs at h <;> (injection h with h'; omega)

lemma indicator_sum (c : ℚ) :
    ((List.range 8).map (fun i => if binIndexOf c == some i then 1 else 0)).sum
      = if 0 ≤ c ∧ c < 1 then 1 else 0 := by
  cases h : binIndexOf c with
  | none =>
    have hout : ¬(0 ≤ c ∧ c < 1) := by
      intro hc
      have := binIndexOf_isSome.mpr hc
      rw [h] at this
      exact absurd this (by simp)
    simp [h, hout]
  | some j =>
    have hj : j < 8 := binIndexOf_lt_eight h
    have hc : 0 ≤ c ∧ c < 1 := binIndexOf_isSome.mp (by rw [h]; rfl)
    rw [if_pos hc, show List.range 8 = [0, 1, 2, 3, 4, 5, 6, 7] by decide]
    interval_cases j <;> simp [h]

lemma binCountsTotal_cons (c : ℚ) (cs : List ℚ) :
    binCountsTotal (c :: cs) = binCountsTotal cs + (if 0 ≤ c ∧ c < 1 then 1 else 0) := by
  have h := indicator_sum c
  unfold binCountsTotal binCount at *
  rw [show List.range 8 = [0, 1, 2, 3, 4, 5, 6, 7] by decide] at *
  simp only [List.map_cons, List.map_nil, List.sum_cons, List.sum_nil,
    List.countP_cons] at *
  omega

lemma binCountsTotal_eq_count (scores : List ℚ) :
    binCountsTotal scores = scores.countP (fun c => decide (0 ≤ c ∧ c < 1)) := by
  induction scores with
  | nil => rfl
  | cons c cs ih =>
    rw [binCountsTotal_cons, ih, List.countP_cons]
    by_cases hc : 0 ≤ c ∧ c < 1
    · simp [hc]
    · simp [hc]

/-- C10: for every results array passed to `createConfidenceChart`, a result
is counted in histogram bin `i` exactly when
`bins[i] <= confidence_score < bins[i+1]` for the bin edges
`[0, 0.2, 0.4, 0.6, 0.7, 0.8, 0.9, 1.0]`; a result whose confidence score is
exactly `1` falls in no bin, so the bin counts sum to the number of results
with score in `[0,1)` — which can be strictly less than the number of
results (witnessed by the single-score list `[1]`) even though every such
score is in `[0,1]`. -/
theorem C10_histogram_binning (scores : List ℚ) :
    (∀ (i : Nat) (c : ℚ), i < 7 →
        (binIndexOf c = some i
          ↔ confidenceBins.getD i 0 ≤ c ∧ c < confidenceBins.getD (i + 1) 0))
    ∧ binIndexOf 1 = none
    ∧ binCountsTotal scores = scores.countP (fun c => decide (0 ≤ c ∧ c < 1))
    ∧ binCountsTotal [(1:ℚ)] < ([(1:ℚ)] : List ℚ).length
    ∧ (0 ≤ (1:ℚ) ∧ (1:ℚ) ≤ 1) := by
  refine ⟨?_, ?_, binCountsTotal_eq_count scores, ?_, by norm_num⟩
  · intro i c h7
    constructor
    · intro h
      exact (binIndexOf_eq_some.mp h).2
    · intro hb
      exact binIndexOf_eq_some.mpr ⟨h7, hb⟩
  · have : ¬((binIndexOf (1:ℚ)).isSome) := by
      rw [binIndexOf_isSome]
      norm_num
    cases h : binIndexOf (1:ℚ) with
    | none => rfl
    | some j => rw [h] at this; exact absurd rfl this
  · rw [binCountsTotal_eq_count]
    have hone : ¬((0:ℚ) ≤ 1 ∧ (1:ℚ) < 1) := by norm_num
    simp [List.countP_cons, hone]

/-- Witness for C10: score `0.65` lands exactly in bin `3` (`[0.6, 0.7)`). -/
theorem C10_histogram_binning_witness :
    binIndexOf (65/100) = some 3
      ↔ confidenceBins.getD 3 0 ≤ 65/100 ∧ (65/100 : ℚ) < confidenceBins.getD 4 0 :=
  (C10_histogram_binning []).1 3 (65/100) (by norm_num)

end SceneSync
